import Mathlib

/-!
# Diary task API — verification of the backend behaviour

A shallow embedding of the Express/Firestore backend (`server` source file):
the Firestore document store is modelled as a list of documents with a fresh-id
counter, JSON objects / Firestore document data as association lists with
JavaScript object-literal semantics (later keys override earlier ones), and the
five route handlers (`GET /api/tasks`, `POST /api/tasks`, `PUT /api/tasks/:id`,
`DELETE /api/tasks/:id`, `GET /api/stats`) as pure functions from a store (and,
where the handler reads the wall clock, the current time in milliseconds) to a
new store and an HTTP response.

Modelling conventions:
* Timestamps and JS `Date` objects are milliseconds since the epoch (`Int`).
  The server's local time zone is taken as UTC and a calendar day as exactly
  86400000 ms (daylight-saving transitions are not modelled).
* A string that is the ISO-8601 rendering of an instant `ms` (the output of
  `Date.prototype.toISOString`, which `new Date` parses back to the same
  instant) is represented by the constructor `Value.vIso ms`; `Value.vStr`
  is any other text, which `new Date` fails to parse.
* `Value.vInvalid` is the JS Invalid Date (`new Date(undefined)` and friends);
  Firestore rejects writes containing one.
* A store-assigned document identifier is a natural number; `Value.vId i` is
  that identifier appearing as a field value.
-/

namespace Diary

/-- A JSON / Firestore field value. -/
inductive Value where
  | vNull
  | vBool (b : Bool)
  | vNum (n : Int)
  | vStr (s : String)
  /-- The ISO-8601 textual rendering of the instant `ms` (ms since epoch). -/
  | vIso (ms : Int)
  /-- A store-native temporal value (Firestore `Timestamp` / valid JS `Date`),
  `ms` milliseconds since the epoch. -/
  | vTime (ms : Int)
  /-- The JS Invalid Date. -/
  | vInvalid
  /-- A store-assigned document identifier occurring as a field value. -/
  | vId (i : Nat)
  deriving DecidableEq

/-- A JSON object / Firestore document data: an association list of fields.
Lookup takes the first binding for a key; JS object keys are unique, and
`Obj.set` (the model of adding a key in an object literal or spread) keeps
them unique. -/
abbrev Obj := List (String × Value)

/-- First binding for key `k` (JS property access). -/
def Obj.get (o : Obj) (k : String) : Option Value :=
  match o.find? (fun kv => kv.1 = k) with
  | some kv => some kv.2
  | none => none

/-- JS object-literal / spread semantics for adding the binding `k ↦ v`:
if `k` is already present its bindings are overwritten in place, otherwise
`k ↦ v` is appended. -/
def Obj.set (o : Obj) (k : String) (v : Value) : Obj :=
  if o.any (fun kv => kv.1 = k) then
    o.map (fun kv => if kv.1 = k then (k, v) else kv)
  else
    o ++ [(k, v)]

/-- `{ ...o, ...extra }`: spread `extra` over `o`, later keys overriding. -/
def Obj.merge (o extra : Obj) : Obj :=
  extra.foldl (fun acc kv => acc.set kv.1 kv.2) o

/-- A stored document: its store-assigned identifier and its field data. -/
structure Doc where
  id : Nat
  data : Obj
  deriving DecidableEq

/-- The `tasks` collection together with the store's fresh-identifier
counter. -/
structure Store where
  docs : List Doc
  nextId : Nat
  deriving DecidableEq

/-- The empty collection. -/
def Store.empty : Store := ⟨[], 0⟩

/-- Well-formedness of the store: every stored identifier was assigned below
the fresh counter, and identifiers are pairwise distinct. -/
def Store.WF (s : Store) : Prop :=
  (∀ d ∈ s.docs, d.id < s.nextId) ∧ (s.docs.map Doc.id).Nodup

/-- JS truthiness of a field value (`undefined` is handled at use sites via
`Option`). -/
def truthy : Value → Bool
  | .vNull => false
  | .vBool b => b
  | .vNum n => n ≠ 0
  | .vStr s => s ≠ ""
  | .vIso _ => true
  | .vTime _ => true
  | .vInvalid => true
  | .vId _ => true

/-- `new Date(x)` where `x` is the (possibly absent) field value: absent or
unparseable input yields the Invalid Date; an ISO string, a number or a
temporal value yields the corresponding instant. -/
def jsNewDate : Option Value → Value
  | none => .vInvalid
  | some .vNull => .vTime 0
  | some (.vBool b) => .vTime (if b then 1 else 0)
  | some (.vNum n) => .vTime n
  | some (.vStr _) => .vInvalid
  | some (.vIso ms) => .vTime ms
  | some (.vTime ms) => .vTime ms
  | some .vInvalid => .vInvalid
  | some (.vId _) => .vInvalid

/-- A value Firestore accepts in a write (everything except an Invalid
Date). -/
def validValue : Value → Bool
  | .vInvalid => false
  | _ => true

/-- Firestore accepts a write exactly when every field value is valid. -/
def validData (o : Obj) : Bool :=
  o.all (fun kv => validValue kv.2)

/-- `convertTimestamps` (the store adapter's shaping step): convert one field
value — a store-native temporal value becomes its ISO-8601 textual rendering,
everything else passes through unchanged. -/
def convertValue : Value → Value
  | .vTime ms => .vIso ms
  | v => v

/-- `convertTimestamps(doc)`: build `{ id: doc.id, ...converted }` where
`converted` maps each field of the document data through `convertValue`.
The spread comes after the `id` binding, so a data field named `id`
overrides the injected document identifier. -/
def convertTimestamps (d : Doc) : Obj :=
  Obj.merge [("id", Value.vId d.id)]
    (d.data.map (fun kv => (kv.1, convertValue kv.2)))

/-- `db.collection('tasks').doc(id).get()` existence check:
the first (and under `Store.WF` the only) document with this identifier. -/
def findDoc (s : Store) (i : Nat) : Option Doc :=
  s.docs.find? (fun d => d.id = i)

/-- An HTTP response of the API. -/
inductive Response where
  /-- 200 with a JSON object body. -/
  | ok (body : Obj)
  /-- 200 with a JSON array body. -/
  | okList (body : List Obj)
  /-- 200 with a `{message}` body. -/
  | okMsg (msg : String)
  /-- 201 with a JSON object body. -/
  | created (body : Obj)
  /-- 400 with `{message}`. -/
  | badRequest (msg : String)
  /-- 404 with `{message}`. -/
  | notFound (msg : String)
  /-- 500 with `{message}`. -/
  | serverError (msg : String)
  deriving DecidableEq

/-- The message of the error Firestore raises when a write contains an
Invalid Date; the handlers surface it via `{message: error.message}`. -/
def invalidDateMsg : String := "Value for argument is not a valid Firestore document"

/-- `db.collection('tasks').add(data)`: validate the data, then append a new
document under the fresh identifier. Returns the new store and the new
document (the result of `docRef.get()` on the returned reference), or the
rejection message. -/
def Store.add (s : Store) (data : Obj) : Except String (Store × Doc) :=
  if validData data then
    .ok (⟨s.docs ++ [⟨s.nextId, data⟩], s.nextId + 1⟩, ⟨s.nextId, data⟩)
  else
    .error invalidDateMsg

/-- `taskRef.update(data)`: merge the given fields into the document with the
given identifier, leaving every other document unchanged. -/
def Store.updateDoc (s : Store) (i : Nat) (upd : Obj) : Store :=
  ⟨s.docs.map (fun d => if d.id = i then ⟨d.id, d.data.merge upd⟩ else d), s.nextId⟩

/-- `taskRef.delete()`: remove every document with the given identifier. -/
def Store.deleteDoc (s : Store) (i : Nat) : Store :=
  ⟨s.docs.filter (fun d => d.id ≠ i), s.nextId⟩

/-- `req.body.completed || false`: the payload's `completed` value when it is
truthy, the boolean `false` otherwise. -/
def completedOrFalse (body : Obj) : Value :=
  match body.get "completed" with
  | some v => if truthy v then v else .vBool false
  | none => .vBool false

/-- The object literal of the create handler:
`{ ...req.body, date: new Date(req.body.date), createdAt: new Date(),
completed: req.body.completed || false }`. -/
def buildTaskData (now : Int) (body : Obj) : Obj :=
  ((body.set "date" (jsNewDate (body.get "date"))).set
    "createdAt" (.vTime now)).set "completed" (completedOrFalse body)

/-- `POST /api/tasks`: build the task data and add it to the collection;
201 with the shaped new document on success, 400 with the store's message on
rejection. `now` is the server clock at the moment of the request. -/
def postTasks (now : Int) (s : Store) (body : Obj) : Store × Response :=
  match s.add (buildTaskData now body) with
  | .ok (s', newDoc) => (s', .created (convertTimestamps newDoc))
  | .error msg => (s, .badRequest msg)

/-- The update handler's payload preparation: `updateData = { ...req.body }`,
then `if (updateData.date) updateData.date = new Date(updateData.date)` — a
truthiness check, so a falsy `date` is left uncoerced. -/
def buildUpdateData (body : Obj) : Obj :=
  match body.get "date" with
  | some v => if truthy v then body.set "date" (jsNewDate (some v)) else body
  | none => body

/-- `PUT /api/tasks/:id`: 404 when no document with the identifier exists;
otherwise take `{...req.body}`, coerce a truthy `date` field through
`new Date`, merge the fields into the document and return the shaped
post-update document (400 when the store rejects the write). -/
def putTask (s : Store) (i : Nat) (body : Obj) : Store × Response :=
  match findDoc s i with
  | none => (s, .notFound "Task not found")
  | some d =>
      if validData (buildUpdateData body) then
        (s.updateDoc i (buildUpdateData body),
         .ok (convertTimestamps ⟨i, d.data.merge (buildUpdateData body)⟩))
      else
        (s, .badRequest invalidDateMsg)

/-- `DELETE /api/tasks/:id`: 404 when no document with the identifier exists;
otherwise remove it and confirm. -/
def deleteTask (s : Store) (i : Nat) : Store × Response :=
  match findDoc s i with
  | none => (s, .notFound "Task not found")
  | some _ => (s.deleteDoc i, .okMsg "Task deleted successfully")

/-- Firestore's cross-type rank used when ordering by a field whose values
have different types (null < boolean < number < timestamp < string). The
within-type order of non-temporal keys beyond this rank is not refined
further: the API's create path only ever writes temporal `createdAt`
values. -/
def fsTypeRank : Value → Nat
  | .vNull => 0
  | .vBool _ => 1
  | .vNum _ => 2
  | .vTime _ => 3
  | .vInvalid => 3
  | .vStr _ => 4
  | .vIso _ => 4
  | .vId _ => 4

/-- The within-type numeric component of an orderBy key. -/
def fsOrderMs : Value → Int
  | .vTime ms => ms
  | .vNum n => n
  | _ => 0

/-- The sort key of a document under `orderBy('createdAt', ...)`:
type rank of the `createdAt` value, its instant, and (Firestore's implicit
final tie-break) the document identifier. -/
def sortKey (d : Doc) : Nat × Int × Nat :=
  match d.data.get "createdAt" with
  | some v => (fsTypeRank v, fsOrderMs v, d.id)
  | none => (0, 0, d.id)

/-- Lexicographic order on sort keys. -/
def lexKeyLe (x y : Nat × Int × Nat) : Prop :=
  x.1 < y.1 ∨ (x.1 = y.1 ∧ (x.2.1 < y.2.1 ∨ (x.2.1 = y.2.1 ∧ x.2.2 ≤ y.2.2)))

instance : DecidableRel lexKeyLe := fun x y => by
  unfold lexKeyLe; infer_instance

/-- `d1` is listed no later than `d2` under `orderBy('createdAt', 'desc')`:
descending order of sort keys (Firestore's implicit `__name__` tie-break
shares the descending direction). -/
def listedBefore (d1 d2 : Doc) : Prop :=
  lexKeyLe (sortKey d2) (sortKey d1)

instance : DecidableRel listedBefore := fun d1 d2 => by
  unfold listedBefore; infer_instance

instance : IsTotal Doc listedBefore where
  total d1 d2 := by
    unfold listedBefore lexKeyLe
    omega

instance : IsTrans Doc listedBefore where
  trans d1 d2 d3 := by
    unfold listedBefore lexKeyLe
    omega

/-- `db.collection('tasks').orderBy('createdAt', 'desc').get()`: the documents
having a `createdAt` field (Firestore omits documents missing the orderBy
field), in descending key order. -/
def listTasks (s : Store) : List Doc :=
  List.insertionSort listedBefore
    (s.docs.filter (fun d => (d.data.get "createdAt").isSome))

/-- `GET /api/tasks`: the ordered collection, shaped; the empty snapshot is
returned as the empty array. -/
def getTasks (s : Store) : Response :=
  .okList ((listTasks s).map convertTimestamps)

/-- The value of the `completionRate` field: the literal number `0`, or the
string produced by `toFixed(1)`. -/
inductive RateVal where
  | num (n : Nat)
  | str (s : String)
  deriving DecidableEq

/-- `(completed / total * 100).toFixed(1)` for `total > 0`: round
`completed / total * 100` to one decimal place (ties away from zero) and
render with exactly one digit after the point. -/
def jsToFixed1 (completed total : Nat) : String :=
  let n := (2000 * completed + total) / (2 * total)
  toString (n / 10) ++ "." ++ toString (n % 10)

/-- The body of the `GET /api/stats` response. -/
structure Stats where
  totalTasks : Nat
  completedTasks : Nat
  todayTasks : Nat
  completionRate : RateVal
  deriving DecidableEq

/-- `new Date(); today.setHours(0,0,0,0)`: midnight of the current calendar
day (server local time modelled as UTC). -/
def startOfDay (now : Int) : Int :=
  now - now % 86400000

/-- `GET /api/stats`: shape every document, then count totals, completed
(truthy `completed`), and tasks whose `date`, re-parsed with `new Date`,
falls in `[startOfToday, startOfTomorrow)`; `completionRate` is
`toFixed(1)` of the percentage, or the literal `0` when the collection is
empty. `now` is the server clock at the moment of the request. -/
def getStats (now : Int) (s : Store) : Stats :=
  let tasks := s.docs.map convertTimestamps
  let totalTasks := tasks.length
  let completedTasks :=
    (tasks.filter (fun t =>
      match t.get "completed" with
      | some v => truthy v
      | none => false)).length
  let today := startOfDay now
  let tomorrow := today + 86400000
  let todayTasks :=
    (tasks.filter (fun t =>
      match jsNewDate (t.get "date") with
      | .vTime ms => decide (today ≤ ms ∧ ms < tomorrow)
      | _ => false)).length
  { totalTasks := totalTasks
    completedTasks := completedTasks
    todayTasks := todayTasks
    completionRate :=
      if totalTasks > 0 then .str (jsToFixed1 completedTasks totalTasks)
      else .num 0 }

/-- The `createdAt` instant of a document whose `createdAt` is a temporal
value (used to phrase the listing order). -/
def createdMs (d : Doc) : Int :=
  fsOrderMs ((Obj.get d.data "createdAt").getD .vNull)

/-- A one-document store used to exercise the handlers on concrete input. -/
def sampleStore : Store :=
  ⟨[⟨0, [("title", Value.vStr "t"), ("createdAt", Value.vTime 5),
      ("date", Value.vTime 40)]⟩], 1⟩

/-- A four-document store with exactly one completed task. -/
def fourStore : Store :=
  ⟨[⟨0, [("completed", Value.vBool true), ("date", Value.vTime 1)]⟩,
    ⟨1, [("completed", Value.vBool false), ("date", Value.vTime 2)]⟩,
    ⟨2, [("date", Value.vTime 3)]⟩,
    ⟨3, [("completed", Value.vBool false), ("date", Value.vTime 4)]⟩], 4⟩

/-- The stored document produced by creating task "A" (payload `title`,
`date`) at server time `t` against the empty store. -/
def docA (t : Int) : Doc :=
  ⟨0, [("title", Value.vStr "A"), ("date", Value.vTime 0),
    ("createdAt", Value.vTime t), ("completed", Value.vBool false)]⟩

/-- The stored document produced by creating task "B" right after `docA`. -/
def docB (t : Int) : Doc :=
  ⟨1, [("title", Value.vStr "B"), ("date", Value.vTime 0),
    ("createdAt", Value.vTime t), ("completed", Value.vBool false)]⟩

/-! ## Association-list lemmas about JS object semantics -/

/-- Keys of an object are pairwise distinct (as in any JS object or Firestore
document). -/
abbrev Obj.NodupKeys (o : Obj) : Prop := (o.map Prod.fst).Nodup

theorem Obj.get_cons (kv : String × Value) (o : Obj) (k : String) :
    Obj.get (kv :: o) k = if kv.1 = k then some kv.2 else Obj.get o k := by
  by_cases h : kv.1 = k <;> simp [Obj.get, List.find?_cons, h]

theorem Obj.get_eq_none_iff (o : Obj) (k : String) :
    o.get k = none ↔ ∀ kv ∈ o, kv.1 ≠ k := by
  induction o with
  | nil => simp [Obj.get]
  | cons kv o ih =>
      rw [Obj.get_cons]
      by_cases h : kv.1 = k <;> simp [h, ih]

theorem Obj.get_mem (o : Obj) (k : String) (v : Value) (h : o.get k = some v) :
    (k, v) ∈ o := by
  induction o with
  | nil => simp [Obj.get] at h
  | cons kv o ih =>
      rw [Obj.get_cons] at h
      by_cases hk : kv.1 = k
      · rw [if_pos hk] at h
        injection h with h
        subst hk
        subst h
        exact List.mem_cons_self _ _
      · rw [if_neg hk] at h
        exact List.mem_cons_of_mem _ (ih h)

theorem Obj.get_append (o₁ o₂ : Obj) (k : String) :
    Obj.get (o₁ ++ o₂) k = (Obj.get o₁ k).or (Obj.get o₂ k) := by
  induction o₁ with
  | nil => simp [Obj.get]
  | cons kv o ih =>
      rw [List.cons_append, Obj.get_cons, Obj.get_cons]
      by_cases hk : kv.1 = k
      · simp [hk]
      · simp [hk, ih]

theorem Obj.get_map_replace_self (o : Obj) (k : String) (v : Value)
    (h : o.any (fun kv => kv.1 = k) = true) :
    Obj.get (o.map (fun kv => if kv.1 = k then (k, v) else kv)) k = some v := by
  induction o with
  | nil => simp at h
  | cons kv o ih =>
      rw [List.map_cons]
      by_cases hk : kv.1 = k
      · rw [if_pos hk, Obj.get_cons, if_pos rfl]
      · rw [if_neg hk, Obj.get_cons, if_neg hk]
        refine ih ?_
        simpa [hk] using h

theorem Obj.get_map_replace_ne (o : Obj) (k' k : String) (v : Value)
    (hne : k' ≠ k) :
    Obj.get (o.map (fun kv => if kv.1 = k' then (k', v) else kv)) k
      = Obj.get o k := by
  induction o with
  | nil => rfl
  | cons kv o ih =>
      rw [List.map_cons]
      by_cases hk : kv.1 = k'
      · rw [if_pos hk, Obj.get_cons, Obj.get_cons, if_neg hne, if_neg (hk ▸ hne), ih]
      · rw [if_neg hk, Obj.get_cons, Obj.get_cons, ih]

theorem Obj.get_set_self (o : Obj) (k : String) (v : Value) :
    (o.set k v).get k = some v := by
  unfold Obj.set
  by_cases h : o.any (fun kv => kv.1 = k) = true
  · rw [if_pos h]
    exact Obj.get_map_replace_self o k v h
  · rw [if_neg h, Obj.get_append]
    have hnone : Obj.get o k = none := by
      rw [Obj.get_eq_none_iff]
      intro kv hkv
      simp only [List.any_eq_true, decide_eq_true_eq, not_exists, not_and] at h
      exact h kv hkv
    rw [hnone]
    simp [Obj.get_cons]

theorem Obj.get_set_of_ne (o : Obj) (k' k : String) (v : Value) (hne : k' ≠ k) :
    (o.set k' v).get k = o.get k := by
  unfold Obj.set
  by_cases h : o.any (fun kv => kv.1 = k') = true
  · rw [if_pos h]
    exact Obj.get_map_replace_ne o k' k v hne
  · rw [if_neg h, Obj.get_append]
    have : Obj.get [(k', v)] k = none := by
      simp [Obj.get_cons, hne, Obj.get]
    rw [this]
    cases Obj.get o k <;> rfl

theorem Obj.get_merge_of_none (o e : Obj) (k : String) (h : e.get k = none) :
    (o.merge e).get k = o.get k := by
  induction e generalizing o with
  | nil => rfl
  | cons kv e ih =>
      rw [Obj.get_cons] at h
      by_cases hk : kv.1 = k
      · rw [if_pos hk] at h
        exact absurd h (by simp)
      · rw [if_neg hk] at h
        show Obj.get (Obj.merge (o.set kv.1 kv.2) e) k = o.get k
        rw [ih _ h, Obj.get_set_of_ne _ _ _ _ hk]

theorem Obj.keys_set_of_mem (o : Obj) (k : String) (v : Value)
    (h : o.any (fun kv => kv.1 = k) = true) :
    (o.set k v).map Prod.fst = o.map Prod.fst := by
  unfold Obj.set
  rw [if_pos h, List.map_map]
  refine List.map_congr_left ?_
  intro kv _
  by_cases hk : kv.1 = k
  · simp [hk]
  · simp [hk]

theorem Obj.get_merge_of_some (o e : Obj) (k : String) (v : Value)
    (hnd : Obj.NodupKeys e) (h : Obj.get e k = some v) :
    Obj.get (Obj.merge o e) k = some v := by
  induction e generalizing o with
  | nil => simp [Obj.get] at h
  | cons kv e ih =>
      simp only [Obj.NodupKeys, List.map_cons, List.nodup_cons] at hnd
      rw [Obj.get_cons] at h
      by_cases hk : kv.1 = k
      · rw [if_pos hk] at h
        injection h with h
        subst hk
        subst h
        show Obj.get (Obj.merge (Obj.set o kv.1 kv.2) e) kv.1 = some kv.2
        have hnone : Obj.get e kv.1 = none := by
          rw [Obj.get_eq_none_iff]
          intro kv' hkv' hcon
          exact hnd.1 (hcon ▸ List.mem_map_of_mem Prod.fst hkv')
        rw [Obj.get_merge_of_none _ _ _ hnone]
        exact Obj.get_set_self o kv.1 kv.2
      · rw [if_neg hk] at h
        exact ih _ hnd.2 h

theorem convertValue_time (ms : Int) : convertValue (.vTime ms) = .vIso ms := rfl

theorem convertValue_of_not_time (v : Value) (h : ∀ ms, v ≠ .vTime ms) :
    convertValue v = v := by
  cases v with
  | vTime ms => exact absurd rfl (h ms)
  | _ => rfl

theorem Obj.get_map_convert (o : Obj) (k : String) :
    Obj.get (o.map (fun kv => (kv.1, convertValue kv.2))) k
      = (Obj.get o k).map convertValue := by
  induction o with
  | nil => rfl
  | cons kv o ih =>
      rw [List.map_cons, Obj.get_cons, Obj.get_cons]
      by_cases hk : kv.1 = k
      · rw [if_pos hk, if_pos hk]
        rfl
      · rw [if_neg hk, if_neg hk, ih]

theorem Obj.nodupKeys_map_convert (o : Obj) (h : Obj.NodupKeys o) :
    Obj.NodupKeys (o.map (fun kv => (kv.1, convertValue kv.2))) := by
  have : (o.map (fun kv => (kv.1, convertValue kv.2))).map Prod.fst
      = o.map Prod.fst := by
    rw [List.map_map]
    rfl
  show ((o.map (fun kv => (kv.1, convertValue kv.2))).map Prod.fst).Nodup
  rw [this]
  exact h

/-- The shaped document's `id` key is the store identifier — provided the
document data itself has no `id` field. -/
theorem convertTimestamps_get_id (d : Doc) (h : Obj.get d.data "id" = none) :
    Obj.get (convertTimestamps d) "id" = some (.vId d.id) := by
  unfold convertTimestamps
  have hnone : Obj.get (d.data.map (fun kv => (kv.1, convertValue kv.2))) "id"
      = none := by
    rw [Obj.get_map_convert, h]
    rfl
  rw [Obj.get_merge_of_none _ _ _ hnone]
  rfl

/-- Every data field of the shaped document is the `convertValue` image of the
original field. -/
theorem convertTimestamps_get_field (d : Doc) (k : String) (v : Value)
    (hnd : Obj.NodupKeys d.data) (h : Obj.get d.data k = some v) :
    Obj.get (convertTimestamps d) k = some (convertValue v) := by
  unfold convertTimestamps
  refine Obj.get_merge_of_some _ _ _ _ (Obj.nodupKeys_map_convert _ hnd) ?_
  rw [Obj.get_map_convert, h]
  rfl

theorem validData_iff (o : Obj) :
    validData o = true ↔ ∀ kv ∈ o, validValue kv.2 = true := by
  unfold validData
  exact List.all_eq_true

theorem validData_eq_false_of_get_invalid (o : Obj) (k : String)
    (h : Obj.get o k = some .vInvalid) : validData o = false := by
  by_contra hcon
  have htrue : validData o = true := by
    cases hval : validData o
    · exact absurd hval hcon
    · rfl
  have := (validData_iff o).mp htrue (k, Value.vInvalid) (Obj.get_mem _ _ _ h)
  simp [validValue] at this

theorem validData_set (o : Obj) (k : String) (v : Value)
    (ho : validData o = true) (hv : validValue v = true) :
    validData (Obj.set o k v) = true := by
  rw [validData_iff] at ho ⊢
  intro kv hkv
  unfold Obj.set at hkv
  by_cases h : o.any (fun kv => kv.1 = k) = true
  · rw [if_pos h] at hkv
    obtain ⟨kv', hkv', heq⟩ := List.mem_map.mp hkv
    by_cases hk : kv'.1 = k
    · rw [if_pos hk] at heq
      rw [← heq]
      exact hv
    · rw [if_neg hk] at heq
      rw [← heq]
      exact ho kv' hkv'
  · rw [if_neg h] at hkv
    rcases List.mem_append.mp hkv with hmem | hmem
    · exact ho kv hmem
    · rw [List.mem_singleton.mp hmem]
      exact hv

theorem findDoc_updateDoc (s : Store) (i j : Nat) (upd : Obj) :
    findDoc (s.updateDoc i upd) j
      = (findDoc s j).map
          (fun d => if d.id = i then ⟨d.id, Obj.merge d.data upd⟩ else d) := by
  show List.find? _ (s.docs.map _) = _
  unfold findDoc
  induction s.docs with
  | nil => rfl
  | cons d ds ih =>
      rw [List.map_cons, List.find?_cons, List.find?_cons]
      have hid : (if d.id = i then (⟨d.id, Obj.merge d.data upd⟩ : Doc) else d).id
          = d.id := by
        by_cases h : d.id = i
        · rw [if_pos h]
        · rw [if_neg h]
      rw [hid]
      cases hd : decide (d.id = j) with
      | true => rfl
      | false => exact ih

theorem findDoc_deleteDoc_self (s : Store) (i : Nat) :
    findDoc (s.deleteDoc i) i = none := by
  show List.find? _ (s.docs.filter _) = _
  rw [List.find?_eq_none]
  intro d hd
  have h := List.of_mem_filter hd
  simp only [ne_eq, decide_not, Bool.not_eq_true', decide_eq_false_iff_not] at h
  simp [h]

/-! ## Handler-level lemmas -/

theorem get_buildTaskData_date (now : Int) (body : Obj) :
    Obj.get (buildTaskData now body) "date"
      = some (jsNewDate (Obj.get body "date")) := by
  unfold buildTaskData
  rw [Obj.get_set_of_ne _ _ _ _ (by decide), Obj.get_set_of_ne _ _ _ _ (by decide)]
  exact Obj.get_set_self _ _ _

theorem get_buildTaskData_createdAt (now : Int) (body : Obj) :
    Obj.get (buildTaskData now body) "createdAt" = some (.vTime now) := by
  unfold buildTaskData
  rw [Obj.get_set_of_ne _ _ _ _ (by decide)]
  exact Obj.get_set_self _ _ _

theorem get_buildTaskData_completed (now : Int) (body : Obj) :
    Obj.get (buildTaskData now body) "completed"
      = some (completedOrFalse body) := by
  unfold buildTaskData
  exact Obj.get_set_self _ _ _

theorem get_buildTaskData_other (now : Int) (body : Obj) (k : String)
    (h1 : k ≠ "date") (h2 : k ≠ "createdAt") (h3 : k ≠ "completed") :
    Obj.get (buildTaskData now body) k = Obj.get body k := by
  unfold buildTaskData
  rw [Obj.get_set_of_ne _ _ _ _ (Ne.symm h3), Obj.get_set_of_ne _ _ _ _ (Ne.symm h2),
    Obj.get_set_of_ne _ _ _ _ (Ne.symm h1)]

theorem get_buildUpdateData_of_ne (body : Obj) (k : String) (h : k ≠ "date") :
    Obj.get (buildUpdateData body) k = Obj.get body k := by
  unfold buildUpdateData
  cases hd : Obj.get body "date" with
  | none => rfl
  | some v =>
      show Obj.get
        (if truthy v = true then Obj.set body "date" (jsNewDate (some v)) else body)
        k = Obj.get body k
      by_cases ht : truthy v = true
      · rw [if_pos ht]
        exact Obj.get_set_of_ne _ _ _ _ (Ne.symm h)
      · rw [if_neg ht]

theorem postTasks_eq_of_valid (now : Int) (s : Store) (body : Obj)
    (hv : validData (buildTaskData now body) = true) :
    postTasks now s body
      = (⟨s.docs ++ [⟨s.nextId, buildTaskData now body⟩], s.nextId + 1⟩,
         .created (convertTimestamps ⟨s.nextId, buildTaskData now body⟩)) := by
  unfold postTasks Store.add
  rw [hv]
  rfl

theorem postTasks_eq_of_invalid (now : Int) (s : Store) (body : Obj)
    (hv : validData (buildTaskData now body) = false) :
    postTasks now s body = (s, .badRequest invalidDateMsg) := by
  unfold postTasks Store.add
  rw [hv]
  rfl

theorem putTask_eq_of_missing (s : Store) (i : Nat) (body : Obj)
    (hf : findDoc s i = none) :
    putTask s i body = (s, .notFound "Task not found") := by
  unfold putTask
  rw [hf]

theorem putTask_eq_of_found_valid (s : Store) (i : Nat) (body : Obj) (d : Doc)
    (hf : findDoc s i = some d) (hv : validData (buildUpdateData body) = true) :
    putTask s i body
      = (s.updateDoc i (buildUpdateData body),
         .ok (convertTimestamps ⟨i, Obj.merge d.data (buildUpdateData body)⟩)) := by
  unfold putTask
  simp only [hf]
  rw [if_pos hv]

theorem putTask_eq_of_found_invalid (s : Store) (i : Nat) (body : Obj) (d : Doc)
    (hf : findDoc s i = some d) (hv : validData (buildUpdateData body) = false) :
    putTask s i body = (s, .badRequest invalidDateMsg) := by
  unfold putTask
  simp only [hf]
  rw [if_neg (by rw [hv]; exact Bool.false_ne_true)]

theorem completedOrFalse_valid (body : Obj) (hb : validData body = true) :
    validValue (completedOrFalse body) = true := by
  unfold completedOrFalse
  cases hc : Obj.get body "completed" with
  | none => rfl
  | some v =>
      show validValue (if truthy v = true then v else Value.vBool false) = true
      by_cases ht : truthy v = true
      · rw [if_pos ht]
        exact (validData_iff body).mp hb ("completed", v) (Obj.get_mem _ _ _ hc)
      · rw [if_neg ht]
        rfl

/-! ## Claims -/

/-- C6: for every identifier that does not resolve to an existing task,
`PUT /api/tasks/:id` returns NotFound (404); the existence check happens
before any write and the store — every document in the collection — is left
unchanged. -/
theorem update_missing_id_not_found (s : Store) (i : Nat) (body : Obj)
    (h : findDoc s i = none) :
    putTask s i body = (s, .notFound "Task not found") :=
  putTask_eq_of_missing s i body h

theorem update_missing_id_not_found_witness :
    putTask sampleStore 7 [("title", Value.vStr "x")]
      = (sampleStore, Response.notFound "Task not found") :=
  update_missing_id_not_found sampleStore 7 [("title", Value.vStr "x")] (by decide)

/-- C7: deleting a nonexistent id returns NotFound (404); deleting an
existing id removes the document permanently and returns the confirmation
message, and an immediate second delete of the same id returns NotFound. -/
theorem delete_semantics (s : Store) (i : Nat) :
    (findDoc s i = none → deleteTask s i = (s, .notFound "Task not found"))
    ∧ (∀ d, findDoc s i = some d →
        deleteTask s i = (s.deleteDoc i, .okMsg "Task deleted successfully")
        ∧ findDoc (s.deleteDoc i) i = none
        ∧ deleteTask (s.deleteDoc i) i
            = (s.deleteDoc i, .notFound "Task not found")) := by
  constructor
  · intro h
    unfold deleteTask
    rw [h]
  · intro d hd
    have hgone := findDoc_deleteDoc_self s i
    refine ⟨?_, hgone, ?_⟩
    · unfold deleteTask
      rw [hd]
    · unfold deleteTask
      rw [hgone]

theorem delete_semantics_witness :
    deleteTask sampleStore 0
      = (sampleStore.deleteDoc 0, Response.okMsg "Task deleted successfully")
    ∧ deleteTask (sampleStore.deleteDoc 0) 0
      = (sampleStore.deleteDoc 0, Response.notFound "Task not found") := by
  have h := (delete_semantics sampleStore 0).2
    ⟨0, [("title", Value.vStr "t"), ("createdAt", Value.vTime 5),
      ("date", Value.vTime 40)]⟩ (by decide)
  exact ⟨h.1, h.2.2⟩

/-- C2 (counterexample): an update payload that itself contains a `createdAt`
field overwrites the task's `createdAt` — the handler spreads `req.body`
without stripping `createdAt`, so `createdAt` is not immutable under partial
update. -/
theorem update_overwrites_createdAt_cex :
    ((putTask sampleStore 0 [("createdAt", Value.vTime 99)]).1.docs.map
        (fun d => Obj.get d.data "createdAt"))
      = [some (Value.vTime 99)]
    ∧ some (Value.vTime 99) ≠ some (Value.vTime 5) := by
  constructor
  · decide
  · decide

/-- C2 (amended): a partial update whose payload does not contain a
`createdAt` field leaves every document's `createdAt` (and every document's
identity and position) unchanged. -/
theorem update_preserves_createdAt (s : Store) (i : Nat) (body : Obj)
    (h : Obj.get body "createdAt" = none) :
    ((putTask s i body).1.docs.map (fun d => (d.id, Obj.get d.data "createdAt")))
      = s.docs.map (fun d => (d.id, Obj.get d.data "createdAt")) := by
  have hupd : Obj.get (buildUpdateData body) "createdAt" = none := by
    rw [get_buildUpdateData_of_ne _ _ (by decide)]
    exact h
  cases hf : findDoc s i with
  | none => rw [putTask_eq_of_missing s i body hf]
  | some d =>
      cases hv : validData (buildUpdateData body) with
      | false => rw [putTask_eq_of_found_invalid s i body d hf hv]
      | true =>
          rw [putTask_eq_of_found_valid s i body d hf hv]
          show ((s.updateDoc i (buildUpdateData body)).docs.map _) = _
          unfold Store.updateDoc
          rw [List.map_map]
          refine List.map_congr_left ?_
          intro d0 _
          by_cases hid : d0.id = i
          · show ((fun d => (d.id, Obj.get d.data "createdAt"))
              (if d0.id = i then ⟨d0.id, Obj.merge d0.data (buildUpdateData body)⟩
               else d0)) = _
            rw [if_pos hid]
            show (d0.id, Obj.get (Obj.merge d0.data (buildUpdateData body)) "createdAt")
              = _
            rw [Obj.get_merge_of_none _ _ _ hupd]
          · show ((fun d => (d.id, Obj.get d.data "createdAt"))
              (if d0.id = i then ⟨d0.id, Obj.merge d0.data (buildUpdateData body)⟩
               else d0)) = _
            rw [if_neg hid]

theorem update_preserves_createdAt_witness :
    ((putTask sampleStore 0 [("title", Value.vStr "new")]).1.docs.map
        (fun d => (d.id, Obj.get d.data "createdAt")))
      = sampleStore.docs.map (fun d => (d.id, Obj.get d.data "createdAt")) :=
  update_preserves_createdAt sampleStore 0 [("title", Value.vStr "new")] (by decide)

/-- C10: on every create, the stored document's `createdAt` is the server
clock at the moment of creation — the object literal writes `createdAt`
after spreading the body, so a `createdAt` supplied by the client is always
overridden and never persisted (the only other outcome is the 400 rejection,
which persists nothing). -/
theorem post_createdAt_overridden (now : Int) (s : Store) (body : Obj) :
    postTasks now s body = (s, .badRequest invalidDateMsg)
    ∨ ∃ nd : Doc,
        postTasks now s body
          = (⟨s.docs ++ [nd], s.nextId + 1⟩, .created (convertTimestamps nd))
        ∧ Obj.get nd.data "createdAt" = some (.vTime now) := by
  cases hv : validData (buildTaskData now body) with
  | false => exact Or.inl (postTasks_eq_of_invalid now s body hv)
  | true =>
      exact Or.inr ⟨⟨s.nextId, buildTaskData now body⟩,
        postTasks_eq_of_valid now s body hv, get_buildTaskData_createdAt now body⟩

/-- C1 (counterexample): a create payload carrying a valid `date` but no
`title` is not rejected — the handler validates neither field itself; the
task is persisted and answered with 201, contradicting the claimed 400 for a
missing `title`. -/
theorem post_missing_title_accepted_cex :
    postTasks 5 Store.empty [("date", Value.vIso 3)]
      = (⟨[⟨0, [("date", Value.vTime 3), ("createdAt", Value.vTime 5),
            ("completed", Value.vBool false)]⟩], 1⟩,
         Response.created
           [("id", Value.vId 0), ("date", Value.vIso 3),
            ("createdAt", Value.vIso 5), ("completed", Value.vBool false)])
    ∧ (postTasks 5 Store.empty [("date", Value.vIso 3)]).1.docs.length = 1 := by
  constructor
  · rfl
  · rfl

/-- C1 (amended): a create payload lacking `date` fails with 400 and persists
nothing (`new Date(undefined)` is invalid and the store rejects the write);
a missing `title` alone is not rejected: a payload with a valid `date`, no
`title` and otherwise store-acceptable values is persisted (without any
`title` field) and answered with 201. -/
theorem post_requires_date_not_title (now : Int) (s : Store) (body : Obj) :
    (Obj.get body "date" = none →
      postTasks now s body = (s, .badRequest invalidDateMsg))
    ∧ (∀ ms, Obj.get body "title" = none → Obj.get body "date" = some (.vIso ms) →
        validData body = true →
        ∃ nd : Doc,
          postTasks now s body
            = (⟨s.docs ++ [nd], s.nextId + 1⟩, .created (convertTimestamps nd))
          ∧ Obj.get nd.data "title" = none) := by
  constructor
  · intro h
    refine postTasks_eq_of_invalid now s body ?_
    refine validData_eq_false_of_get_invalid _ "date" ?_
    rw [get_buildTaskData_date, h]
    rfl
  · intro ms htitle hdate hvb
    have hv : validData (buildTaskData now body) = true := by
      unfold buildTaskData
      refine validData_set _ _ _ (validData_set _ _ _ (validData_set _ _ _ hvb ?_) rfl)
        (completedOrFalse_valid body hvb)
      rw [hdate]
      rfl
    refine ⟨⟨s.nextId, buildTaskData now body⟩, postTasks_eq_of_valid now s body hv, ?_⟩
    show Obj.get (buildTaskData now body) "title" = none
    rw [get_buildTaskData_other now body "title" (by decide) (by decide) (by decide)]
    exact htitle

theorem post_requires_date_not_title_witness :
    postTasks 5 sampleStore [("priority", Value.vStr "high")]
      = (sampleStore, Response.badRequest invalidDateMsg)
    ∧ ∃ nd : Doc,
        postTasks 5 sampleStore [("date", Value.vIso 3)]
          = (⟨sampleStore.docs ++ [nd], sampleStore.nextId + 1⟩,
             Response.created (convertTimestamps nd))
        ∧ Obj.get nd.data "title" = none :=
  ⟨(post_requires_date_not_title 5 sampleStore [("priority", Value.vStr "high")]).1
      (by decide),
   (post_requires_date_not_title 5 sampleStore [("date", Value.vIso 3)]).2 3
      (by decide) (by decide) (by decide)⟩

/-- C3 (counterexample): the shaping step builds `{ id: doc.id, ...converted }`,
so a data field named `id` shadows the injected store identifier — the shaped
mapping's `id` key is the data field's value, not the document identifier. -/
theorem convertTimestamps_id_shadowed_cex :
    Obj.get (convertTimestamps ⟨7, [("id", Value.vStr "spoof")]⟩) "id"
      = some (Value.vStr "spoof")
    ∧ Obj.get (convertTimestamps ⟨7, [("id", Value.vStr "spoof")]⟩) "id"
      ≠ some (Value.vId 7) := by
  constructor
  · rfl
  · decide

/-- C3 (amended): for a document whose data does not itself contain an `id`
field, the shaping step maps every store-native temporal value to its
ISO-8601 textual rendering, passes every non-temporal field through
unchanged, and injects the store identifier under the key `id`. -/
theorem convertTimestamps_spec (d : Doc) (hnd : Obj.NodupKeys d.data)
    (hid : Obj.get d.data "id" = none) :
    Obj.get (convertTimestamps d) "id" = some (.vId d.id)
    ∧ (∀ k ms, Obj.get d.data k = some (.vTime ms) →
        Obj.get (convertTimestamps d) k = some (.vIso ms))
    ∧ (∀ k v, Obj.get d.data k = some v → (∀ ms, v ≠ .vTime ms) →
        Obj.get (convertTimestamps d) k = some v) := by
  refine ⟨convertTimestamps_get_id d hid, ?_, ?_⟩
  · intro k ms h
    rw [convertTimestamps_get_field d k _ hnd h]
    rfl
  · intro k v h hnt
    rw [convertTimestamps_get_field d k v hnd h, convertValue_of_not_time v hnt]

theorem convertTimestamps_spec_witness :
    Obj.get (convertTimestamps ⟨4, [("title", Value.vStr "x"),
        ("date", Value.vTime 86400000)]⟩) "id" = some (Value.vId 4)
    ∧ Obj.get (convertTimestamps ⟨4, [("title", Value.vStr "x"),
        ("date", Value.vTime 86400000)]⟩) "date" = some (Value.vIso 86400000)
    ∧ Obj.get (convertTimestamps ⟨4, [("title", Value.vStr "x"),
        ("date", Value.vTime 86400000)]⟩) "title" = some (Value.vStr "x") := by
  have h := convertTimestamps_spec
    ⟨4, [("title", Value.vStr "x"), ("date", Value.vTime 86400000)]⟩
    (by decide) (by decide)
  exact ⟨h.1, h.2.1 "date" 86400000 (by decide),
    h.2.2 "title" (Value.vStr "x") (by decide) (fun ms hms => Value.noConfusion hms)⟩

/-- C9 (counterexample): the backend applies no `priority` default — creating
a task whose payload has only `title` and `date` stores a document with no
`priority` field at all (the `medium` default exists only in the client's
form state), contradicting the claimed defaulting to `medium`. -/
theorem post_priority_not_defaulted_cex :
    ((postTasks 5 Store.empty
        [("title", Value.vStr "t"), ("date", Value.vIso 3)]).1.docs.map
      (fun d => Obj.get d.data "priority")) = [none] := by
  decide

/-- C9 (amended): creating a task whose payload has only `title` and `date`
persists a document with `completed` the boolean `false`, no `priority`
field (absent, not defaulted), and a freshly assigned identifier distinct
from every existing identifier. -/
theorem post_title_date_defaults (now : Int) (s : Store) (title : String)
    (dms : Int) (hwf : Store.WF s) :
    ∃ nd : Doc,
      postTasks now s [("title", .vStr title), ("date", .vIso dms)]
        = (⟨s.docs ++ [nd], s.nextId + 1⟩, .created (convertTimestamps nd))
      ∧ Obj.get nd.data "completed" = some (.vBool false)
      ∧ Obj.get nd.data "priority" = none
      ∧ ∀ d0 ∈ s.docs, d0.id ≠ nd.id := by
  refine ⟨⟨s.nextId, buildTaskData now [("title", .vStr title), ("date", .vIso dms)]⟩,
    postTasks_eq_of_valid now s _ ?_, ?_, ?_, ?_⟩
  · rfl
  · rfl
  · rfl
  · intro d0 hd0
    show d0.id ≠ s.nextId
    exact Nat.ne_of_lt (hwf.1 d0 hd0)

theorem post_title_date_defaults_witness :
    ∃ nd : Doc,
      postTasks 9 sampleStore [("title", Value.vStr "w"), ("date", Value.vIso 2)]
        = (⟨sampleStore.docs ++ [nd], sampleStore.nextId + 1⟩,
           Response.created (convertTimestamps nd))
      ∧ Obj.get nd.data "completed" = some (Value.vBool false)
      ∧ Obj.get nd.data "priority" = none
      ∧ ∀ d0 ∈ sampleStore.docs, d0.id ≠ nd.id :=
  post_title_date_defaults 9 sampleStore "w" 2 (by constructor <;> decide)

theorem getStats_completionRate (now : Int) (s : Store) :
    (getStats now s).completionRate =
      if 0 < (getStats now s).totalTasks
      then .str (jsToFixed1 (getStats now s).completedTasks
          (getStats now s).totalTasks)
      else .num 0 := rfl

/-- `toFixed(1)` computes the half-up rounding of ten times the
percentage. -/
theorem jsToFixed1_round (c t : ℕ) (ht : 0 < t) :
    (((2000 * c + t) / (2 * t) : ℕ) : ℤ) = round ((c : ℚ) / t * 100 * 10) := by
  have ht' : (0:ℚ) < (t:ℚ) := by exact_mod_cast ht
  rw [round_eq]
  have hx : (c : ℚ) / t * 100 * 10 + 1/2
      = ((2000 * c + t : ℕ) : ℚ) / ((2 * t : ℕ) : ℚ) := by
    push_cast
    field_simp
    ring
  rw [hx]
  have h0 : (0:ℚ) ≤ ((2000 * c + t : ℕ) : ℚ) / ((2 * t : ℕ) : ℚ) := by positivity
  rw [← Int.natCast_floor_eq_floor h0, Nat.floor_div_eq_div]

/-- C4: the stats endpoint's `completionRate` is the literal number `0` when
the collection is empty, and otherwise the string rendering, with exactly one
decimal digit, of `completedTasks / totalTasks * 100` rounded to one decimal
place; in particular 1 completed of 1 renders "100.0" and 1 of 4 renders
"25.0". -/
theorem stats_completionRate_spec (now : Int) (s : Store) :
    ((getStats now s).totalTasks = 0 → (getStats now s).completionRate = .num 0)
    ∧ (0 < (getStats now s).totalTasks →
        ∃ m : ℕ,
          (m : ℤ) = round (((getStats now s).completedTasks : ℚ)
              / ((getStats now s).totalTasks : ℚ) * 100 * 10)
          ∧ (getStats now s).completionRate
              = .str (toString (m / 10) ++ "." ++ toString (m % 10)))
    ∧ jsToFixed1 1 1 = "100.0" ∧ jsToFixed1 1 4 = "25.0" := by
  refine ⟨?_, ?_, rfl, rfl⟩
  · intro h
    rw [getStats_completionRate, if_neg (by simp [h])]
  · intro h
    rw [getStats_completionRate, if_pos h]
    exact ⟨(2000 * (getStats now s).completedTasks + (getStats now s).totalTasks)
        / (2 * (getStats now s).totalTasks),
      jsToFixed1_round _ _ h, rfl⟩

theorem stats_completionRate_spec_witness :
    (getStats 0 Store.empty).completionRate = RateVal.num 0
    ∧ ∃ m : ℕ,
        (m : ℤ) = round (((getStats 0 fourStore).completedTasks : ℚ)
            / ((getStats 0 fourStore).totalTasks : ℚ) * 100 * 10)
        ∧ (getStats 0 fourStore).completionRate
            = RateVal.str (toString (m / 10) ++ "." ++ toString (m % 10)) :=
  ⟨(stats_completionRate_spec 0 Store.empty).1 (by decide),
   (stats_completionRate_spec 0 fourStore).2.1 (by decide)⟩

/-- C8: the stats endpoint's `todayTasks` counts exactly the tasks whose
`date` lies in the half-open window `[startOfToday, startOfTomorrow)` of the
server's local calendar day; concretely, a task dated to the current
calendar day is counted and a task dated exactly 24 hours earlier is not,
in either creation order. -/
theorem stats_todayTasks_spec (now : Int) (s : Store)
    (hnd : ∀ d ∈ s.docs, Obj.NodupKeys d.data)
    (hdate : ∀ d ∈ s.docs, ∃ ms, Obj.get d.data "date" = some (.vTime ms)) :
    (getStats now s).todayTasks
      = (s.docs.filter (fun d =>
          match Obj.get d.data "date" with
          | some (.vTime ms) =>
              decide (startOfDay now ≤ ms ∧ ms < startOfDay now + 86400000)
          | _ => false)).length
    ∧ (getStats 172805000
        ⟨[⟨0, [("date", Value.vTime 172800100)]⟩,
          ⟨1, [("date", Value.vTime 86400100)]⟩], 2⟩).todayTasks = 1
    ∧ (getStats 172805000
        ⟨[⟨0, [("date", Value.vTime 86400100)]⟩,
          ⟨1, [("date", Value.vTime 172800100)]⟩], 2⟩).todayTasks = 1 := by
  refine ⟨?_, by decide, by decide⟩
  have hTT : (getStats now s).todayTasks
      = ((s.docs.map convertTimestamps).filter (fun t =>
          match jsNewDate (Obj.get t "date") with
          | .vTime ms =>
              decide (startOfDay now ≤ ms ∧ ms < startOfDay now + 86400000)
          | _ => false)).length := rfl
  rw [hTT, List.filter_map, List.length_map]
  congr 1
  refine List.filter_congr ?_
  intro d hd
  obtain ⟨ms, hms⟩ := hdate d hd
  have hshap : Obj.get (convertTimestamps d) "date" = some (Value.vIso ms) := by
    rw [convertTimestamps_get_field d "date" _ (hnd d hd) hms]
    rfl
  show (match jsNewDate (Obj.get (convertTimestamps d) "date") with
        | .vTime ms =>
            decide (startOfDay now ≤ ms ∧ ms < startOfDay now + 86400000)
        | _ => false)
      = _
  rw [hshap, hms]
  rfl

theorem stats_todayTasks_spec_witness :
    (getStats 0 fourStore).todayTasks
      = (fourStore.docs.filter (fun d =>
          match Obj.get d.data "date" with
          | some (.vTime ms) =>
              decide (startOfDay 0 ≤ ms ∧ ms < startOfDay 0 + 86400000)
          | _ => false)).length :=
  (stats_todayTasks_spec 0 fourStore (by decide)
    (fun d hd => by
      simp only [fourStore, List.mem_cons, List.not_mem_nil, or_false] at hd
      rcases hd with rfl | rfl | rfl | rfl
      · exact ⟨1, rfl⟩
      · exact ⟨2, rfl⟩
      · exact ⟨3, rfl⟩
      · exact ⟨4, rfl⟩)).1

/-- C5: listing returns the whole collection ordered by `createdAt`
descending (an empty collection yields the empty array, not an error), and
creating task A then task B — at strictly increasing server times — makes
the list come back as [B, A]. -/
theorem list_tasks_spec (s : Store) (t1 t2 : Int)
    (hs : ∀ d ∈ s.docs, ∃ ms, Obj.get d.data "createdAt" = some (.vTime ms))
    (h12 : t1 < t2) :
    (listTasks s).Perm s.docs
    ∧ (listTasks s).Pairwise (fun d1 d2 => createdMs d2 ≤ createdMs d1)
    ∧ getTasks Store.empty = .okList []
    ∧ (postTasks t1 Store.empty
        [("title", Value.vStr "A"), ("date", Value.vIso 0)]).1
        = ⟨[docA t1], 1⟩
    ∧ (postTasks t2 ⟨[docA t1], 1⟩
        [("title", Value.vStr "B"), ("date", Value.vIso 0)]).1
        = ⟨[docA t1, docB t2], 2⟩
    ∧ getTasks ⟨[docA t1, docB t2], 2⟩
        = .okList [convertTimestamps (docB t2), convertTimestamps (docA t1)] := by
  have hfil : s.docs.filter (fun d => (Obj.get d.data "createdAt").isSome)
      = s.docs := by
    refine List.filter_eq_self.mpr ?_
    intro d hd
    obtain ⟨ms, hms⟩ := hs d hd
    rw [hms]
    rfl
  have hperm : (listTasks s).Perm s.docs := by
    unfold listTasks
    rw [hfil]
    exact List.perm_insertionSort _ _
  refine ⟨hperm, ?_, rfl, rfl, rfl, ?_⟩
  · have hsorted : (listTasks s).Pairwise listedBefore :=
      List.sorted_insertionSort listedBefore _
    refine List.Pairwise.imp_of_mem ?_ hsorted
    intro a b ha hb hr
    obtain ⟨ma, hma⟩ := hs a (hperm.mem_iff.mp ha)
    obtain ⟨mb, hmb⟩ := hs b (hperm.mem_iff.mp hb)
    unfold listedBefore at hr
    simp only [sortKey, hma, hmb, lexKeyLe, fsTypeRank, fsOrderMs] at hr
    unfold createdMs
    rw [hma, hmb]
    show mb ≤ ma
    omega
  · have hno : ¬ listedBefore (docA t1) (docB t2) := by
      have hka : sortKey (docA t1) = (3, t1, 0) := rfl
      have hkb : sortKey (docB t2) = (3, t2, 1) := rfl
      unfold listedBefore
      rw [hka, hkb]
      unfold lexKeyLe
      simp only []
      omega
    have hins : List.insertionSort listedBefore [docA t1, docB t2]
        = [docB t2, docA t1] := by
      show List.orderedInsert listedBefore (docA t1) [docB t2] = [docB t2, docA t1]
      rw [List.orderedInsert, if_neg hno]
      rfl
    show Response.okList
        ((List.insertionSort listedBefore [docA t1, docB t2]).map convertTimestamps)
      = _
    rw [hins]
    rfl

theorem list_tasks_spec_witness :
    (listTasks sampleStore).Perm sampleStore.docs
    ∧ (listTasks sampleStore).Pairwise
        (fun d1 d2 => createdMs d2 ≤ createdMs d1)
    ∧ getTasks Store.empty = Response.okList [] := by
  have h := list_tasks_spec sampleStore 0 1
    (fun d hd => by
      rcases List.mem_singleton.mp hd with rfl
      exact ⟨5, rfl⟩)
    (by decide)
  exact ⟨h.1, h.2.1, h.2.2.1⟩

end Diary
